import Mathlib

/-!
Shallow embedding of the feed-generation core of the blog repository
(source file holding `getPosts` and `generateFeed`).

Modelling conventions:
* The filesystem is a `FileSystem` value: the entry list returned by
  `readdir("./public/", { withFileTypes: true })` and a partial read
  function (`readFile` resolving to `some` content, or `none` when the
  promise rejects).  `Promise.all` over the reads is `readAll`: it fails
  when any single read fails.
* `Date.parse` (and `new Date(s)` on a string) is modelled by
  `dateParse`, restricted to ISO-8601 calendar-date strings
  `YYYY-MM-DD` interpreted at UTC midnight; every other string maps to
  `none`, standing for `NaN` / an invalid date.  The numeric value is
  milliseconds since the Unix epoch, via the standard civil-calendar
  day-count algorithm.
* `gray-matter` is modelled by `matter`: a `---` fenced block of
  line-oriented `key: value` pairs at the top of the document; keys
  other than the six used by the program are ignored (the program never
  reads them).
* `Array.prototype.sort(cmp)` is modelled by `jsSort`, a stable
  insertion sort that places `x` before `y` exactly when
  `cmp x y < 0`, driven by the source comparator `cmpPosts`.
-/

/-- One entry of `readdir(..., { withFileTypes: true })`. -/
structure DirEntry where
  name : String
  isDirectory : Bool
deriving DecidableEq

/-- The observable filesystem: the posts-root listing and file reads. -/
structure FileSystem where
  entries : List DirEntry
  readFile : String → Option String

/-- The `Post` interface of the source.  `slug` is always a string
(set from the directory name or the spread front matter); the
front-matter fields are `Option` because no validation is performed and
a missing key yields `undefined`. -/
structure Post where
  slug : String
  title : Option String
  date : Option String
  spoiler : Option String
  youtube : Option String
  bluesky : Option String
deriving DecidableEq

/-- Parsed front-matter data (`matter(fileContent).data`), restricted to
the keys the program reads. -/
structure FrontMatter where
  slug : Option String := none
  title : Option String := none
  date : Option String := none
  spoiler : Option String := none
  youtube : Option String := none
  bluesky : Option String := none
deriving DecidableEq

/-- Splits a character list at every occurrence of `sep` (the semantics
of `String.prototype.split` with a one-character separator). -/
def splitChar (sep : Char) : List Char → List (List Char)
  | [] => [[]]
  | c :: cs =>
    match splitChar sep cs with
    | [] => if c = sep then [[], []] else [[c]]
    | h :: t => if c = sep then [] :: h :: t else (c :: h) :: t

/-- Gregorian leap-year test. -/
def isLeapYear (y : Nat) : Bool :=
  (y % 4 == 0 && y % 100 != 0) || y % 400 == 0

/-- Number of days of month `m` (1-12) of year `y`. -/
def daysInMonth (y m : Nat) : Nat :=
  if m = 2 then (if isLeapYear y then 29 else 28)
  else if m = 4 ∨ m = 6 ∨ m = 9 ∨ m = 11 then 30
  else 31

/-- Days from the Unix epoch (1970-01-01) to civil date `y-m-d`,
standard era/day-of-era computation. -/
def daysFromCivil (y m d : Int) : Int :=
  let yAdj : Int := if m ≤ 2 then y - 1 else y
  let era : Int := Int.fdiv yAdj 400
  let yoe : Int := yAdj - era * 400
  let mp : Int := if m > 2 then m - 3 else m + 9
  let doy : Int := Int.fdiv (153 * mp + 2) 5 + d - 1
  let doe : Int := yoe * 365 + Int.fdiv yoe 4 - Int.fdiv yoe 100 + doy
  era * 146097 + doe - 719468

/-- Reads a non-empty all-digit character list as a natural number. -/
def digitsToNat (l : List Char) : Option Nat :=
  if l.length > 0 && l.all Char.isDigit then
    some (l.foldl (fun n c => 10 * n + (c.toNat - 48)) 0)
  else none

/-- Model of JS `Date.parse` (UTC milliseconds since the epoch),
restricted to ISO-8601 calendar-date strings `YYYY-MM-DD`; any other
string yields `none` (JS `NaN`). -/
def dateParse (s : String) : Option Int :=
  match splitChar '-' s.toList with
  | [ys, ms, ds] =>
    if ys.length = 4 ∧ ms.length = 2 ∧ ds.length = 2 then
      match digitsToNat ys, digitsToNat ms, digitsToNat ds with
      | some y, some m, some d =>
        if 1 ≤ m ∧ m ≤ 12 ∧ 1 ≤ d ∧ d ≤ daysInMonth y m then
          some (86400000 * daysFromCivil (Int.ofNat y) (Int.ofNat m) (Int.ofNat d))
        else none
      | _, _, _ => none
    else none
  | _ => none

/-- Stores one front-matter `key: value` pair into the data record. -/
def setField (fm : FrontMatter) (k v : String) : FrontMatter :=
  if k = "slug" then { fm with slug := some v }
  else if k = "title" then { fm with title := some v }
  else if k = "date" then { fm with date := some v }
  else if k = "spoiler" then { fm with spoiler := some v }
  else if k = "youtube" then { fm with youtube := some v }
  else if k = "bluesky" then { fm with bluesky := some v }
  else fm

/-- Splits a line at the first occurrence of the `: ` key-value
separator: the key before it, the whole remainder after it. -/
def breakKV : List Char → Option (List Char × List Char)
  | [] => none
  | ':' :: ' ' :: rest => some ([], rest)
  | c :: rest =>
    match breakKV rest with
    | none => none
    | some p => some (c :: p.1, p.2)

/-- Applies one front-matter line of the form `key: value`. -/
def applyKV (fm : FrontMatter) (line : List Char) : FrontMatter :=
  match breakKV line with
  | some p => setField fm (String.mk p.1) (String.mk p.2)
  | none => fm

/-- Collects the lines before the closing `---` delimiter. -/
def takeUntilClose : List (List Char) → Option (List (List Char))
  | [] => none
  | l :: ls =>
    if l = "---".toList then some []
    else (takeUntilClose ls).map (l :: ·)

/-- Model of `matter(fileContent).data` (gray-matter): a leading `---`
fenced block of `key: value` lines; a document with no well-formed
front-matter block yields empty data. -/
def matter (s : String) : FrontMatter :=
  match splitChar '\n' s.toList with
  | first :: rest =>
    if first = "---".toList then
      match takeUntilClose rest with
      | some fmLines => fmLines.foldl applyKV {}
      | none => {}
    else {}
  | [] => {}

/-- The record construction `{ slug, ...data }`: the spread comes after
the `slug` field, so a front-matter `slug` key overrides the
directory-derived slug. -/
def mkPost (slug : String) (d : FrontMatter) : Post :=
  { slug := d.slug.getD slug
    title := d.title
    date := d.date
    spoiler := d.spoiler
    youtube := d.youtube
    bluesky := d.bluesky }

/-- `Date.parse(post.date)` (a missing `date` field is an invalid
date). -/
def parsedTS (p : Post) : Option Int :=
  match p.date with
  | some s => dateParse s
  | none => none

/-- `Date.parse(a.date) < Date.parse(b.date)`; any comparison with
`NaN` is false in JS. -/
def dateLtB (a b : Post) : Bool :=
  match parsedTS a, parsedTS b with
  | some x, some y => decide (x < y)
  | _, _ => false

/-- The sort comparator of `getPosts`:
`(a, b) => Date.parse(a.date) < Date.parse(b.date) ? 1 : -1`. -/
def cmpPosts (a b : Post) : Int :=
  if dateLtB a b then 1 else -1

/-- Inserts `x` into `l`, placing `x` before the first element `y` with
`cmpPosts x y < 0`. -/
def sortInsert (x : Post) : List Post → List Post
  | [] => [x]
  | y :: ys => if cmpPosts x y < 0 then x :: y :: ys else y :: sortInsert x ys

/-- Model of `posts.sort(cmpPosts)`: a stable comparison sort. -/
def jsSort : List Post → List Post
  | [] => []
  | x :: xs => sortInsert x (jsSort xs)

/-- Path of the post source file read for directory `dir`:
`"./public/" + dir + "/index.md"`. -/
def postsDirPath (dir : String) : String :=
  "./public/" ++ dir ++ "/index.md"

/-- The subdirectory names of the posts root:
`entries.filter(e => e.isDirectory()).map(e => e.name)`. -/
def dirNames (fs : FileSystem) : List String :=
  (fs.entries.filter (fun e => e.isDirectory)).map (fun e => e.name)

/-- `Promise.all(dirs.map(dir => readFile(...)))`: all contents, or a
rejection if any single read fails. -/
def readAll (fs : FileSystem) : List String → Option (List String)
  | [] => some []
  | d :: ds =>
    match fs.readFile (postsDirPath d), readAll fs ds with
    | some c, some cs => some (c :: cs)
    | _, _ => none

/-- The unsorted post list of `getPosts`: one `mkPost` per directory,
pairing each slug with its file content. -/
def loadPosts (fs : FileSystem) : Option (List Post) :=
  match readAll fs (dirNames fs) with
  | none => none
  | some fileContents =>
    some (((dirNames fs).zip fileContents).map (fun p => mkPost p.1 (matter p.2)))

/-- `getPosts`: load all posts, then sort with `cmpPosts`. -/
def getPosts (fs : FileSystem) : Option (List Post) :=
  match loadPosts fs with
  | none => none
  | some posts => some (jsSort posts)

/-- One feed entry (`feed.addItem({...})`).  `date` is the value of
`new Date(post.date)` (`none` = invalid date), the optional fields are
the post's possibly-undefined front-matter values. -/
structure FeedItem where
  date : Option Int
  description : Option String
  id : String
  link : String
  title : Option String
deriving DecidableEq

/-- The feed document: the site-level options given to `new Feed(...)`
plus the entry list. -/
structure FeedDoc where
  author_name : String
  author_link : String
  description : String
  favicon : String
  feedLinks_atom : String
  feedLinks_rss : String
  generator : String
  id : String
  image : String
  link : String
  title : String
  items : List FeedItem
deriving DecidableEq

/-- `metadata.title` of the source. -/
def metadata_title : String := "dragon-slayer — A blog by Sriram"

/-- `metadata.description` of the source. -/
def metadata_description : String := "A blog by Sriram"

/-- `site_url` of `generateFeed`. -/
def site_url : String := "https://github.psriram.com/"

/-- `new Feed(feedOptions)`: the feed before any entry is added. -/
def feedInit : FeedDoc :=
  { author_name := "Sriram Prasanth"
    author_link := site_url
    description := metadata_description
    favicon := site_url ++ "/icon.jpeg"
    feedLinks_atom := site_url ++ "atom.xml"
    feedLinks_rss := site_url ++ "rss.xml"
    generator := "Feed for Node.js"
    id := site_url
    image := "https://avatars.githubusercontent.com/u/141391722"
    link := site_url
    title := metadata_title
    items := [] }

/-- The entry built from one post by the `feed.addItem({...})` call. -/
def postItem (p : Post) : FeedItem :=
  { date := parsedTS p
    description := p.spoiler
    id := site_url ++ p.slug ++ "/"
    link := site_url ++ p.slug ++ "/"
    title := p.title }

/-- `feed.addItem(item)`: appends one entry. -/
def addItem (f : FeedDoc) (it : FeedItem) : FeedDoc :=
  { f with items := f.items ++ [it] }

/-- The `for (const post of posts) feed.addItem(...)` loop over the
initial feed. -/
def buildFeed (posts : List Post) : FeedDoc :=
  posts.foldl (fun f p => addItem f (postItem p)) feedInit

/-- `generateFeed`: load the posts, then build the feed; a load failure
propagates. -/
def generateFeed (fs : FileSystem) : Option FeedDoc :=
  match getPosts fs with
  | none => none
  | some posts => some (buildFeed posts)

/-- The descending-date relation on posts: both dates parse and the
second is not after the first. -/
def descR (a b : Post) : Prop :=
  ∃ u v, parsedTS a = some u ∧ parsedTS b = some v ∧ v ≤ u

lemma descR_trans {a b c : Post} (h1 : descR a b) (h2 : descR b c) : descR a c := by
  obtain ⟨u, v, ha, hb, hvu⟩ := h1
  obtain ⟨v2, w, hb2, hc, hwv⟩ := h2
  rw [hb] at hb2
  injection hb2 with e
  exact ⟨u, w, ha, hc, by omega⟩

lemma cmpPosts_lt_iff (a b : Post) : cmpPosts a b < 0 ↔ dateLtB a b = false := by
  unfold cmpPosts
  cases h : dateLtB a b <;> simp

lemma descR_of_cmp_neg {a b : Post} {u v : Int}
    (ha : parsedTS a = some u) (hb : parsedTS b = some v)
    (h : cmpPosts a b < 0) : descR a b := by
  have hlt : dateLtB a b = false := (cmpPosts_lt_iff a b).mp h
  unfold dateLtB at hlt
  rw [ha, hb] at hlt
  simp at hlt
  exact ⟨u, v, ha, hb, by omega⟩

lemma descR_of_cmp_nonneg {a b : Post} {u v : Int}
    (ha : parsedTS a = some u) (hb : parsedTS b = some v)
    (h : ¬ cmpPosts a b < 0) : descR b a := by
  have hlt : dateLtB a b = true := by
    cases hcase : dateLtB a b
    · exact absurd ((cmpPosts_lt_iff a b).mpr hcase) h
    · rfl
  unfold dateLtB at hlt
  rw [ha, hb] at hlt
  simp at hlt
  exact ⟨v, u, hb, ha, le_of_lt hlt⟩

lemma sortInsert_perm (x : Post) : ∀ l : List Post, List.Perm (sortInsert x l) (x :: l)
  | [] => List.Perm.refl _
  | y :: ys => by
    unfold sortInsert
    by_cases h : cmpPosts x y < 0
    · rw [if_pos h]
    · rw [if_neg h]
      exact ((sortInsert_perm x ys).cons y).trans (List.Perm.swap x y ys)

lemma jsSort_perm : ∀ l : List Post, List.Perm (jsSort l) l
  | [] => List.Perm.refl _
  | x :: xs => (sortInsert_perm x (jsSort xs)).trans ((jsSort_perm xs).cons x)

lemma sortInsert_pairwise {x : Post} {l : List Post}
    (hx : (parsedTS x).isSome) (hl : ∀ p ∈ l, (parsedTS p).isSome)
    (hpw : l.Pairwise descR) : (sortInsert x l).Pairwise descR := by
  induction l with
  | nil => simp [sortInsert]
  | cons y ys ih =>
    obtain ⟨u, hu⟩ := Option.isSome_iff_exists.mp hx
    obtain ⟨v, hv⟩ := Option.isSome_iff_exists.mp (hl y (List.mem_cons_self y ys))
    unfold sortInsert
    by_cases h : cmpPosts x y < 0
    · rw [if_pos h]
      have hxy : descR x y := descR_of_cmp_neg hu hv h
      refine List.pairwise_cons.mpr ⟨?_, hpw⟩
      intro z hz
      rcases List.mem_cons.mp hz with rfl | hz2
      · exact hxy
      · exact descR_trans hxy (List.rel_of_pairwise_cons hpw hz2)
    · rw [if_neg h]
      have hyx : descR y x := descR_of_cmp_nonneg hu hv h
      refine List.pairwise_cons.mpr
        ⟨?_, ih (fun p hp => hl p (List.mem_cons_of_mem y hp)) (List.Pairwise.of_cons hpw)⟩
      intro z hz
      rcases List.mem_cons.mp ((sortInsert_perm x ys).mem_iff.mp hz) with rfl | hz2
      · exact hyx
      · exact List.rel_of_pairwise_cons hpw hz2

lemma jsSort_pairwise : ∀ {l : List Post},
    (∀ p ∈ l, (parsedTS p).isSome) → (jsSort l).Pairwise descR := by
  intro l
  induction l with
  | nil => intro _; simp [jsSort]
  | cons x xs ih =>
    intro hall
    unfold jsSort
    apply sortInsert_pairwise (hall x (List.mem_cons_self x xs))
    · intro p hp
      exact hall p (List.mem_cons_of_mem x ((jsSort_perm xs).mem_iff.mp hp))
    · exact ih (fun p hp => hall p (List.mem_cons_of_mem x hp))

lemma readAll_none {fs : FileSystem} {d : String} {ds : List String}
    (hmem : d ∈ ds) (hnone : fs.readFile (postsDirPath d) = none) :
    readAll fs ds = none := by
  induction ds with
  | nil => cases hmem
  | cons a as ih =>
    rcases List.mem_cons.mp hmem with rfl | h
    · unfold readAll
      rw [hnone]
    · unfold readAll
      rw [ih h]
      cases fs.readFile (postsDirPath a) <;> rfl

lemma readAll_isSome {fs : FileSystem} {ds : List String}
    (h : ∀ d ∈ ds, (fs.readFile (postsDirPath d)).isSome) :
    (readAll fs ds).isSome := by
  induction ds with
  | nil => simp [readAll]
  | cons a as ih =>
    obtain ⟨c, hc⟩ := Option.isSome_iff_exists.mp (h a (List.mem_cons_self a as))
    obtain ⟨cs, hcs⟩ :=
      Option.isSome_iff_exists.mp (ih (fun d hd => h d (List.mem_cons_of_mem a hd)))
    unfold readAll
    rw [hc, hcs]
    rfl

lemma readAll_some_spec {fs : FileSystem} {ds : List String} {cs : List String}
    (h : readAll fs ds = some cs) :
    cs.length = ds.length ∧ ∀ p ∈ ds.zip cs, fs.readFile (postsDirPath p.1) = some p.2 := by
  induction ds generalizing cs with
  | nil =>
    unfold readAll at h
    injection h with e
    subst e
    simp
  | cons a as ih =>
    unfold readAll at h
    cases hra : fs.readFile (postsDirPath a) with
    | none =>
      rw [hra] at h
      cases readAll fs as <;> cases h
    | some c =>
      rw [hra] at h
      cases hrs : readAll fs as with
      | none =>
        rw [hrs] at h
        cases h
      | some cs2 =>
        rw [hrs] at h
        injection h with e
        subst e
        obtain ⟨hlen, hmem⟩ := ih hrs
        refine ⟨by simp [hlen], ?_⟩
        intro p hp
        rw [List.zip_cons_cons] at hp
        rcases List.mem_cons.mp hp with rfl | h2
        · exact hra
        · exact hmem p h2

lemma foldl_addItem_items (posts : List Post) :
    ∀ f0 : FeedDoc, (posts.foldl (fun f p => addItem f (postItem p)) f0).items
      = f0.items ++ posts.map postItem := by
  induction posts with
  | nil => intro f0; simp
  | cons p ps ih =>
    intro f0
    simp only [List.foldl_cons, List.map_cons]
    rw [ih]
    simp [addItem]

lemma foldl_addItem_atom (posts : List Post) :
    ∀ f0 : FeedDoc, (posts.foldl (fun f p => addItem f (postItem p)) f0).feedLinks_atom
      = f0.feedLinks_atom := by
  induction posts with
  | nil => intro f0; rfl
  | cons p ps ih =>
    intro f0
    simp only [List.foldl_cons]
    rw [ih]
    rfl

lemma foldl_addItem_rss (posts : List Post) :
    ∀ f0 : FeedDoc, (posts.foldl (fun f p => addItem f (postItem p)) f0).feedLinks_rss
      = f0.feedLinks_rss := by
  induction posts with
  | nil => intro f0; rfl
  | cons p ps ih =>
    intro f0
    simp only [List.foldl_cons]
    rw [ih]
    rfl

/-- Fixture: a posts root holding the posts `old` (2023-01-01) and
`new` (2024-06-01) and one non-directory entry. -/
def twoPostFS : FileSystem :=
  { entries := [⟨"old", true⟩, ⟨"new", true⟩, ⟨"notes.txt", false⟩]
    readFile := fun p =>
      if p = "./public/old/index.md" then
        some "---\ntitle: Old\ndate: 2023-01-01\nspoiler: SO\n---\nbody"
      else if p = "./public/new/index.md" then
        some "---\ntitle: New\ndate: 2024-06-01\nspoiler: SN\n---\nbody"
      else none }

/-- The post loaded from the `old` directory of `twoPostFS`. -/
def postOld : Post :=
  { slug := "old", title := some "Old", date := some "2023-01-01"
    spoiler := some "SO", youtube := none, bluesky := none }

/-- The post loaded from the `new` directory of `twoPostFS`. -/
def postNew : Post :=
  { slug := "new", title := some "New", date := some "2024-06-01"
    spoiler := some "SN", youtube := none, bluesky := none }

/-- Fixture: a posts root with one subdirectory whose `index.md` is
missing (every read rejects). -/
def missingFS : FileSystem :=
  { entries := [⟨"ghost", true⟩], readFile := fun _ => none }

/-- Fixture: a posts root with zero subdirectories. -/
def emptyFS : FileSystem :=
  { entries := [⟨"readme.txt", false⟩], readFile := fun _ => none }

/-- Fixture: a posts root with one post whose front matter has only a
title (no date, no spoiler). -/
def noFieldFS : FileSystem :=
  { entries := [⟨"bare", true⟩]
    readFile := fun p =>
      if p = "./public/bare/index.md" then some "---\ntitle: T\n---\nbody"
      else none }

/-- Fixture: two distinct directories whose front matter both declare
`slug: x`. -/
def slugClashFS : FileSystem :=
  { entries := [⟨"alpha", true⟩, ⟨"beta", true⟩]
    readFile := fun p =>
      if p = "./public/alpha/index.md" then some "---\ntitle: A\nslug: x\n---\nbody"
      else if p = "./public/beta/index.md" then some "---\ntitle: B\nslug: x\n---\nbody"
      else none }

/-- The post loaded from the `alpha` directory of `slugClashFS`. -/
def postClashA : Post :=
  { slug := "x", title := some "A", date := none
    spoiler := none, youtube := none, bluesky := none }

/-- The post loaded from the `beta` directory of `slugClashFS`. -/
def postClashB : Post :=
  { slug := "x", title := some "B", date := none
    spoiler := none, youtube := none, bluesky := none }

/-- A post whose date string does not parse. -/
def postBadDate : Post :=
  { slug := "bad", title := none, date := some "not-a-date"
    spoiler := none, youtube := none, bluesky := none }

/-- C1: every successfully loaded post set whose dates all parse comes
out of `getPosts` sorted by parsed date descending (each adjacent pair
satisfies `parse(p[i].date) >= parse(p[i+1].date)`); in particular the
two posts dated 2023-01-01 (slug `old`) and 2024-06-01 (slug `new`)
load in the order `["new", "old"]`. -/
theorem getPosts_sorted_desc :
    (∀ fs ps, getPosts fs = some ps → (∀ p ∈ ps, (parsedTS p).isSome) →
      ps.Chain' descR) ∧
    (getPosts twoPostFS).map (fun ps => ps.map Post.slug) = some ["new", "old"] := by
  constructor
  · intro fs ps hps hall
    unfold getPosts at hps
    cases hlp : loadPosts fs with
    | none => rw [hlp] at hps; cases hps
    | some raw =>
      rw [hlp] at hps
      injection hps with e
      subst e
      apply List.Pairwise.chain'
      apply jsSort_pairwise
      intro p hp
      exact hall p ((jsSort_perm raw).mem_iff.mpr hp)
  · decide

/-- Witness for C1 at the concrete two-post fixture. -/
theorem getPosts_sorted_desc_witness :
    getPosts twoPostFS = some [postNew, postOld] ∧
    List.Chain' descR [postNew, postOld] :=
  ⟨by decide,
   getPosts_sorted_desc.1 twoPostFS [postNew, postOld] (by decide) (by decide)⟩

/-- C2: if any subdirectory's `index.md` read fails, the whole
`getPosts` load fails (no partial list), and `generateFeed` fails for
that invocation too. -/
theorem getPosts_missing_file_fails :
    ∀ fs e, e ∈ fs.entries → e.isDirectory = true →
      fs.readFile (postsDirPath e.name) = none →
      getPosts fs = none ∧ generateFeed fs = none := by
  intro fs e hmem hdir hnone
  have hd : e.name ∈ dirNames fs := by
    unfold dirNames
    exact List.mem_map_of_mem _ (List.mem_filter.mpr ⟨hmem, by simp [hdir]⟩)
  have hra : readAll fs (dirNames fs) = none := readAll_none hd hnone
  have hgp : getPosts fs = none := by
    unfold getPosts loadPosts
    rw [hra]
  refine ⟨hgp, ?_⟩
  unfold generateFeed
  rw [hgp]

/-- Witness for C2 at a root whose single subdirectory has no readable
`index.md`. -/
theorem getPosts_missing_file_fails_witness :
    getPosts missingFS = none ∧ generateFeed missingFS = none :=
  getPosts_missing_file_fails missingFS ⟨"ghost", true⟩ (by decide) rfl rfl

/-- C3: the feed built from a post list has exactly one entry per post,
appended in list order (no deduplication, pagination, or cap), each
mapped field-by-field: `title` from the post title, `description` from
the spoiler, `id = link` = site base URL + slug + `/`, and `date` the
parsed post date; and `generateFeed` builds the feed from exactly the
list `getPosts` returns. -/
theorem generateFeed_entry_mapping :
    (∀ posts : List Post, (buildFeed posts).items = posts.map postItem) ∧
    (∀ p : Post,
      (postItem p).title = p.title ∧
      (postItem p).description = p.spoiler ∧
      (postItem p).id = site_url ++ p.slug ++ "/" ∧
      (postItem p).link = site_url ++ p.slug ++ "/" ∧
      (postItem p).date = parsedTS p) ∧
    (∀ fs posts, getPosts fs = some posts →
      generateFeed fs = some (buildFeed posts)) := by
  refine ⟨?_, ?_, ?_⟩
  · intro posts
    unfold buildFeed
    rw [foldl_addItem_items]
    rfl
  · intro p
    exact ⟨rfl, rfl, rfl, rfl, rfl⟩
  · intro fs posts h
    unfold generateFeed
    rw [h]

/-- Witness for C3 at the two-post fixture. -/
theorem generateFeed_entry_mapping_witness :
    generateFeed twoPostFS = some (buildFeed [postNew, postOld]) :=
  generateFeed_entry_mapping.2.2 twoPostFS [postNew, postOld] (by decide)

/-- C4: the `getPosts` comparator returns 1 (sorting `b` first) exactly
when both dates parse and `a`'s parsed date is strictly before `b`'s;
for equal parsed dates or any unparsable date it returns -1 (it does
not sort `b` first). -/
theorem cmpPosts_spec :
    ∀ a b : Post,
      (cmpPosts a b = 1 ↔
        ∃ u v, parsedTS a = some u ∧ parsedTS b = some v ∧ u < v) ∧
      ((parsedTS a = none ∨ parsedTS b = none ∨ parsedTS a = parsedTS b) →
        cmpPosts a b = -1) := by
  intro a b
  constructor
  · unfold cmpPosts dateLtB
    cases ha : parsedTS a with
    | none => simp
    | some u =>
      cases hb : parsedTS b with
      | none => simp
      | some v =>
        by_cases hlt : u < v
        · simp [hlt]
        · simp [hlt]
  · intro h
    unfold cmpPosts dateLtB
    rcases h with h | h | h
    · rw [h]
      cases parsedTS b <;> rfl
    · rw [h]
      cases parsedTS a <;> rfl
    · rw [h]
      cases parsedTS b with
      | none => rfl
      | some v => simp

/-- Witness for C4: an unparsable pair and an equal-date pair both get
-1, while a strictly earlier first date gets 1. -/
theorem cmpPosts_spec_witness :
    cmpPosts postBadDate postOld = -1 ∧
    cmpPosts postOld postOld = -1 ∧
    cmpPosts postOld postNew = 1 :=
  ⟨(cmpPosts_spec postBadDate postOld).2 (Or.inl (by decide)),
   (cmpPosts_spec postOld postOld).2 (Or.inr (Or.inr rfl)),
   (cmpPosts_spec postOld postNew).1.mpr
     ⟨1672531200000, 1717200000000, by decide, by decide, by decide⟩⟩

/-- C5: a posts root with zero subdirectories loads to the empty post
list without error, and the generated feed has an empty entry list,
also without error. -/
theorem getPosts_empty_root :
    ∀ fs : FileSystem, (∀ e ∈ fs.entries, e.isDirectory = false) →
      getPosts fs = some [] ∧
      ∃ f, generateFeed fs = some f ∧ f.items = [] := by
  intro fs h
  have hdn : dirNames fs = [] := by
    unfold dirNames
    rw [List.filter_eq_nil_iff.mpr (fun e he => by simp [h e he])]
    rfl
  have hgp : getPosts fs = some [] := by
    unfold getPosts loadPosts
    rw [hdn]
    rfl
  refine ⟨hgp, buildFeed [], ?_, rfl⟩
  unfold generateFeed
  rw [hgp]

/-- Witness for C5 at a root holding only a non-directory entry. -/
theorem getPosts_empty_root_witness :
    getPosts emptyFS = some [] ∧
    ∃ f, generateFeed emptyFS = some f ∧ f.items = [] :=
  getPosts_empty_root emptyFS (by decide)

/-- C6: `getPosts` performs no schema validation: it succeeds whenever
every subdirectory's file is readable, regardless of front matter; a
front matter missing `title`, `date`, or `spoiler` yields a post record
lacking that field, and the absence propagates into the feed entry
built from the post. -/
theorem getPosts_no_validation :
    (∀ fs : FileSystem,
      (∀ d ∈ dirNames fs, (fs.readFile (postsDirPath d)).isSome) →
      (getPosts fs).isSome) ∧
    (∀ s : String, ∀ d : FrontMatter,
      (d.title = none → (mkPost s d).title = none ∧ (postItem (mkPost s d)).title = none) ∧
      (d.date = none → (mkPost s d).date = none ∧ (postItem (mkPost s d)).date = none) ∧
      (d.spoiler = none →
        (mkPost s d).spoiler = none ∧ (postItem (mkPost s d)).description = none)) := by
  constructor
  · intro fs h
    obtain ⟨cs, hcs⟩ := Option.isSome_iff_exists.mp (readAll_isSome h)
    unfold getPosts loadPosts
    rw [hcs]
    rfl
  · intro s d
    refine ⟨?_, ?_, ?_⟩
    · intro h
      exact ⟨h, h⟩
    · intro h
      refine ⟨h, ?_⟩
      show parsedTS (mkPost s d) = none
      unfold parsedTS mkPost
      rw [h]
    · intro h
      exact ⟨h, h⟩

/-- Witness for C6 at a post whose front matter has only a title. -/
theorem getPosts_no_validation_witness :
    (getPosts noFieldFS).isSome ∧
    ((mkPost "bare" (matter "---\ntitle: T\n---\nbody")).date = none ∧
      (postItem (mkPost "bare" (matter "---\ntitle: T\n---\nbody"))).date = none) :=
  ⟨getPosts_no_validation.1 noFieldFS (by decide),
   (getPosts_no_validation.2 "bare" (matter "---\ntitle: T\n---\nbody")).2.1 (by decide)⟩

lemma loadPosts_slugs {fs : FileSystem} {raw : List Post}
    (h : loadPosts fs = some raw)
    (hns : ∀ d ∈ dirNames fs, ∀ c, fs.readFile (postsDirPath d) = some c →
      (matter c).slug = none) :
    raw.map Post.slug = dirNames fs := by
  unfold loadPosts at h
  cases hra : readAll fs (dirNames fs) with
  | none => rw [hra] at h; cases h
  | some cs =>
    rw [hra] at h
    injection h with e
    subst e
    obtain ⟨hlen, hmem⟩ := readAll_some_spec hra
    rw [List.map_map]
    have hpt : ∀ p ∈ (dirNames fs).zip cs,
        (Post.slug ∘ fun q => mkPost q.1 (matter q.2)) p = Prod.fst p := by
      intro p hp
      have hd : p.1 ∈ dirNames fs := (List.of_mem_zip hp).1
      have hslug := hns p.1 hd p.2 (hmem p hp)
      show (mkPost p.1 (matter p.2)).slug = p.1
      unfold mkPost
      rw [hslug]
      rfl
    rw [List.map_congr_left hpt]
    exact List.map_fst_zip _ _ (le_of_eq hlen.symm)

/-- C7 counterexample: in `slugClashFS` the two directory names are
distinct, yet both loaded posts carry slug `x` (taken from front
matter), so the returned slugs are neither pairwise distinct nor
directory names. -/
theorem getPosts_slug_clash_counterexample :
    (slugClashFS.entries.map DirEntry.name).Pairwise (fun a b => a ≠ b) ∧
    getPosts slugClashFS = some [postClashA, postClashB] ∧
    postClashA.slug = postClashB.slug ∧
    postClashA.slug ∉ slugClashFS.entries.map DirEntry.name :=
  ⟨by decide, by decide, by decide, by decide⟩

/-- C7 (amended): when the subdirectory names are pairwise distinct
and additionally no post's front matter defines a `slug` key, the
returned slugs are exactly the subdirectory names (up to sort order)
and pairwise distinct. -/
theorem getPosts_slug_distinct_amended :
    ∀ fs ps, getPosts fs = some ps →
      (dirNames fs).Pairwise (fun a b => a ≠ b) →
      (∀ d ∈ dirNames fs, ∀ c, fs.readFile (postsDirPath d) = some c →
        (matter c).slug = none) →
      List.Perm (ps.map Post.slug) (dirNames fs) ∧
      (ps.map Post.slug).Pairwise (fun a b => a ≠ b) := by
  intro fs ps hps hdist hns
  unfold getPosts at hps
  cases hlp : loadPosts fs with
  | none => rw [hlp] at hps; cases hps
  | some raw =>
    rw [hlp] at hps
    injection hps with e
    subst e
    have hslugs : raw.map Post.slug = dirNames fs := loadPosts_slugs hlp hns
    have hperm : List.Perm ((jsSort raw).map Post.slug) (dirNames fs) := by
      rw [← hslugs]
      exact (jsSort_perm raw).map Post.slug
    refine ⟨hperm, ?_⟩
    exact (List.Perm.pairwise_iff (fun h => Ne.symm h) hperm).mpr hdist

/-- Witness for the amended C7 at the two-post fixture. -/
theorem getPosts_slug_distinct_amended_witness :
    List.Perm ([postNew, postOld].map Post.slug) (dirNames twoPostFS) ∧
    ([postNew, postOld].map Post.slug).Pairwise (fun a b => a ≠ b) :=
  getPosts_slug_distinct_amended twoPostFS [postNew, postOld] (by decide) (by decide)
    (by
      intro d hd c hc
      have hd2 : d = "old" ∨ d = "new" := by
        have e : dirNames twoPostFS = ["old", "new"] := by decide
        rw [e] at hd
        simpa using hd
      rcases hd2 with rfl | rfl
      · rw [show twoPostFS.readFile (postsDirPath "old")
            = some "---\ntitle: Old\ndate: 2023-01-01\nspoiler: SO\n---\nbody" from by decide] at hc
        injection hc with e2
        subst e2
        decide
      · rw [show twoPostFS.readFile (postsDirPath "new")
            = some "---\ntitle: New\ndate: 2024-06-01\nspoiler: SN\n---\nbody" from by decide] at hc
        injection hc with e2
        subst e2
        decide)

/-- C8: the feed's site-level canonical links are the site base URL
followed directly by the format name and `.xml`. -/
theorem generateFeed_feed_links :
    ∀ fs f, generateFeed fs = some f →
      f.feedLinks_atom = site_url ++ "atom.xml" ∧
      f.feedLinks_rss = site_url ++ "rss.xml" := by
  intro fs f h
  unfold generateFeed at h
  cases hgp : getPosts fs with
  | none => rw [hgp] at h; cases h
  | some posts =>
    rw [hgp] at h
    injection h with e
    subst e
    constructor
    · unfold buildFeed
      rw [foldl_addItem_atom]
      rfl
    · unfold buildFeed
      rw [foldl_addItem_rss]
      rfl

/-- Witness for C8 at the empty posts root. -/
theorem generateFeed_feed_links_witness :
    (buildFeed []).feedLinks_atom = site_url ++ "atom.xml" ∧
    (buildFeed []).feedLinks_rss = site_url ++ "rss.xml" :=
  generateFeed_feed_links emptyFS (buildFeed []) (by decide)

/-- C9: a front-matter `slug` key overrides the directory-derived slug
(the spread comes after the `slug` field); the directory name is used
only when the front matter has no `slug` key.  End to end, the
slug-clash fixture returns slugs `["x", "x"]` for directories `alpha`
and `beta`, breaking slug derivation and uniqueness. -/
theorem mkPost_slug_override :
    (∀ s : String, ∀ d : FrontMatter, ∀ sl : String,
      d.slug = some sl → (mkPost s d).slug = sl) ∧
    (∀ s : String, ∀ d : FrontMatter, d.slug = none → (mkPost s d).slug = s) ∧
    (getPosts slugClashFS).map (fun ps => ps.map Post.slug) = some ["x", "x"] := by
  refine ⟨?_, ?_, by decide⟩
  · intro s d sl h
    unfold mkPost
    rw [h]
    rfl
  · intro s d h
    unfold mkPost
    rw [h]
    rfl

/-- Witness for C9: the front-matter slug `x` overrides directory name
`alpha`. -/
theorem mkPost_slug_override_witness :
    (mkPost "alpha" (matter "---\ntitle: A\nslug: x\n---\nbody")).slug = "x" :=
  mkPost_slug_override.1 "alpha" (matter "---\ntitle: A\nslug: x\n---\nbody") "x" (by decide)

/-- C10: a successful `getPosts` returns exactly one post per
subdirectory of the root: the unsorted load has one record per
directory entry that is a directory, and sorting only permutes it. -/
theorem getPosts_post_count :
    ∀ fs ps, getPosts fs = some ps →
      ∃ raw, loadPosts fs = some raw ∧ List.Perm ps raw ∧
        raw.length = (fs.entries.filter (fun e => e.isDirectory)).length ∧
        ps.length = (fs.entries.filter (fun e => e.isDirectory)).length := by
  intro fs ps hps
  unfold getPosts at hps
  cases hlp : loadPosts fs with
  | none => rw [hlp] at hps; cases hps
  | some raw =>
    rw [hlp] at hps
    injection hps with e
    subst e
    have hperm := jsSort_perm raw
    have hlen : raw.length = (fs.entries.filter (fun e => e.isDirectory)).length := by
      unfold loadPosts at hlp
      cases hra : readAll fs (dirNames fs) with
      | none => rw [hra] at hlp; cases hlp
      | some cs =>
        rw [hra] at hlp
        injection hlp with e2
        obtain ⟨hclen, hmm⟩ := readAll_some_spec hra
        rw [← e2, List.length_map, List.length_zip, hclen]
        simp [dirNames]
    exact ⟨raw, rfl, hperm, hlen, by rw [hperm.length_eq, hlen]⟩

/-- Witness for C10 at the two-post fixture. -/
theorem getPosts_post_count_witness :
    ∃ raw, loadPosts twoPostFS = some raw ∧ List.Perm [postNew, postOld] raw ∧
      raw.length = (twoPostFS.entries.filter (fun e => e.isDirectory)).length ∧
      ([postNew, postOld] : List Post).length
        = (twoPostFS.entries.filter (fun e => e.isDirectory)).length :=
  getPosts_post_count twoPostFS [postNew, postOld] (by decide)
